import Mathlib

/-!
Verification of the Parallel-Processing-System-Simulation repository.

The Python sources (`task.py`, `worker.py`, `master.py`) are shallowly
embedded below: wall-clock timestamps become rationals, Python queues
become Lean lists (head = front of the queue), and the nondeterminism of
the workload bodies and of the thread/process scheduler is made explicit
through oracle parameters and through an action-schedule small-step
system.  Python `None` stored in a slot that starts unset is modelled by
`Option`; the sentinel "poison pill" on the task queue is `Option.none`.
-/

namespace PPS

/-- A Python value, as far as the payloads and results of this program
need: the workloads exchange ints, strings, floats and `None`. -/
inductive PyValue where
  | vnone
  | vint (n : Int)
  | vstr (s : String)
  | vrat (q : Rat)
deriving DecidableEq, Repr

/-- The value finally stored in `Task.result` by `Worker.process_task`
(`worker.py` lines 39 and 47): either the dictionary returned by the
workload function, or the error-marker string built from the exception. -/
inductive TaskResult where
  | ok (v : List (String × PyValue))
  | error (msg : String)
deriving DecidableEq, Repr

/-- `task.py` lines 11-21: the `Task` dataclass.  `result` defaults to
Python `None` (here `Option.none`, i.e. not yet assigned) and
`processing_time` defaults to `0.0`. -/
structure Task where
  id : Nat
  task_type : String
  payload : List (String × PyValue)
  result : Option TaskResult := Option.none
  processing_time : Rat := 0
deriving DecidableEq, Repr

/-- The three workload functions of `task.py` (`io_task`, `cpu_task`,
`mixed_task`), viewed as opaque dispatch targets as the coordination
engine sees them. -/
inductive WorkloadFn where
  | io_fn
  | cpu_fn
  | mixed_fn
deriving DecidableEq, Repr

/-- `task.py` lines 77-81: the dictionary `task_functions` mapping the
type tag to the workload function. -/
def task_functions : List (String × WorkloadFn) :=
  [("io", WorkloadFn.io_fn), ("cpu", WorkloadFn.cpu_fn), ("mixed", WorkloadFn.mixed_fn)]

/-- `task.py` lines 75-82: `get_task_function` — dictionary lookup with
`cpu_task` as the default for an unknown type tag
(`task_functions.get(task_type, cpu_task)`). -/
def get_task_function (task_type : String) : WorkloadFn :=
  (task_functions.lookup task_type).getD WorkloadFn.cpu_fn

/-- The outcome of invoking a workload function on a payload: it either
returns a dictionary or raises an exception carrying a message.  This is
the oracle through which the embedding feeds `Worker.process_task`. -/
inductive WorkloadOutcome where
  | returns (v : List (String × PyValue))
  | raises (msg : String)
deriving DecidableEq, Repr

/-- `worker.py` lines 26-49: `Worker.process_task`.  `start_time` is the
clock reading taken at line 29 and `now` the reading taken when the
elapsed time is computed (line 40 on success, line 48 on failure); the
workload invocation result is the `outcome` oracle.  On success the
returned value is attached to `result`; on any exception the marker
string `"Error: " ++ msg` is attached instead; `processing_time` is
written in both branches and the task itself is returned in both. -/
def process_task (task : Task) (outcome : WorkloadOutcome) (start_time now : Rat) : Task :=
  match outcome with
  | WorkloadOutcome.returns v =>
      { task with result := some (TaskResult.ok v), processing_time := now - start_time }
  | WorkloadOutcome.raises msg =>
      { task with result := some (TaskResult.error ("Error: " ++ msg)),
                  processing_time := now - start_time }

/-- What one `task_queue.get(timeout=0.5)` call in the worker loop can
yield (`worker.py` lines 66-80): an item (a real task, or the `None`
poison pill), the `queue.Empty` timeout signal, or some other queue
exception. -/
inductive GetOutcome where
  | item (x : Option Task)
  | emptySignal
  | queueError (msg : String)
deriving DecidableEq, Repr

/-- The observable state of one `ThreadWorker.run` loop (`worker.py`
lines 62-82): whether the loop has exited, and the items this worker has
pushed onto the result queue so far. -/
structure WorkerLoopState where
  worker_id : Nat
  stopped : Bool
  pushed : List Task
deriving DecidableEq, Repr

/-- One iteration of the `ThreadWorker.run` loop (`worker.py` lines
66-80).  A `None` item is the poison pill and breaks the loop; a real
task is processed by `process_task` and the processed task is pushed to
the result queue; `queue.Empty` means continue; any other queue
exception is logged and the loop continues. -/
def worker_run_step (ws : WorkerLoopState) (g : GetOutcome) (outcome : WorkloadOutcome)
    (start_time now : Rat) : WorkerLoopState :=
  if ws.stopped then ws
  else
    match g with
    | GetOutcome.item Option.none => { ws with stopped := true }
    | GetOutcome.item (some t) =>
        { ws with pushed := ws.pushed ++ [process_task t outcome start_time now] }
    | GetOutcome.emptySignal => ws
    | GetOutcome.queueError _ => ws

/-- The state of a `Master` (`master.py` lines 19-33).  The task queue
holds `Option Task` because `stop_workers` enqueues the `None` poison
pill alongside real tasks; queues are lists with the head at the front.
`workers` records the worker ids of the pool. -/
structure MasterState where
  name : String
  num_workers : Int
  workers : List Nat
  task_queue : List (Option Task)
  result_queue : List Task
  running : Bool
  tasks_submitted : Nat
  tasks_completed : Nat
deriving DecidableEq, Repr

/-- `master.py` lines 22-33: the body of `Master.__init__` — fields set,
counters zeroed, `running = False`, queues created empty; `workers` is
filled in by the subclass's `create_workers`. -/
def Master.init (name : String) (num_workers : Int) : MasterState :=
  { name := name, num_workers := num_workers, workers := [],
    task_queue := [], result_queue := [], running := false,
    tasks_submitted := 0, tasks_completed := 0 }

/-- `master.py` lines 195-209: `SingleProcessMaster.__init__` calls
`super().__init__("single_process", num_workers=1)` — the requested
count is ignored — and `create_workers` installs exactly one
`ThreadWorker(1, ...)`. -/
def SingleProcessMaster.init (requested : Int) : MasterState :=
  { Master.init ("single_process") 1 with workers := [1] }

/-- `master.py` lines 211-228: `ThreadedMaster.__init__` keeps the
requested count and `create_workers` builds `ThreadWorker(i+1, ...)` for
`i in range(num_workers)` (empty when the count is not positive). -/
def ThreadedMaster.init (num_workers : Int) : MasterState :=
  { Master.init ("threaded") num_workers with
      workers := (List.range num_workers.toNat).map (fun i => i + 1) }

/-- `master.py` lines 230-247: `MultiprocessMaster.__init__`, identical
pool construction with `ProcessWorker`s. -/
def MultiprocessMaster.init (num_workers : Int) : MasterState :=
  { Master.init ("multiprocess") num_workers with
      workers := (List.range num_workers.toNat).map (fun i => i + 1) }

/-- The constructor viewed as a fallible call, as the spec's
`construct(backendKind, numWorkers)` interface describes it.  The Python
`__init__` bodies contain no validation and no raise path for any worker
count, so every path returns the constructed instance. -/
def SingleProcessMaster.construct (requested : Int) : Except String MasterState :=
  Except.ok (SingleProcessMaster.init requested)

/-- `ThreadedMaster(num_workers)` as a fallible call; the source has no
raise path, so construction always succeeds. -/
def ThreadedMaster.construct (num_workers : Int) : Except String MasterState :=
  Except.ok (ThreadedMaster.init num_workers)

/-- `MultiprocessMaster(num_workers)` as a fallible call; the source has
no raise path, so construction always succeeds. -/
def MultiprocessMaster.construct (num_workers : Int) : Except String MasterState :=
  Except.ok (MultiprocessMaster.init num_workers)

/-- `master.py` lines 43-48: `start_workers` starts every pool member
and sets `running = True`. -/
def start_workers (m : MasterState) : MasterState :=
  { m with running := true }

/-- `master.py` lines 50-67: `stop_workers`.  When not running it
returns immediately; otherwise it enqueues one `None` poison pill per
pool member (`for _ in range(len(self.workers))`), joins each worker
with a bounded wait, and sets `running = False`. -/
def stop_workers (m : MasterState) : MasterState :=
  if m.running then
    { m with task_queue := m.task_queue ++ List.replicate m.workers.length Option.none,
             running := false }
  else m

/-- `master.py` lines 69-73: `submit_task` enqueues the task and
increments `tasks_submitted`. -/
def submit_task (m : MasterState) (task : Task) : MasterState :=
  { m with task_queue := m.task_queue ++ [some task],
           tasks_submitted := m.tasks_submitted + 1 }

/-- `master.py` lines 75-89: `collect_results`.  The loop calls
`result_queue.get(block=False)` repeatedly — the `timeout` parameter is
never used — appending each item and incrementing `tasks_completed`,
until some exception stops it, and `except Exception: pass` swallows
whatever that exception is.  `failAt = some j` injects an arbitrary
queue exception on the `j`-th `get` call; `failAt = Option.none` is the
normal run, where the loop ends with `queue.Empty` once the queue is
drained.  Returns the new state and the collected batch. -/
def collect_results (m : MasterState) (timeout : Option Rat) (failAt : Option Nat) :
    MasterState × List Task :=
  let stop : Nat :=
    match failAt with
    | Option.none => m.result_queue.length
    | some j => min j m.result_queue.length
  let batch := m.result_queue.take stop
  ({ m with result_queue := m.result_queue.drop stop,
            tasks_completed := m.tasks_completed + batch.length }, batch)

/-- `master.py` lines 91-100: `generate_workload` submits
`generate_random_task(i+1)` for `i in range(num_tasks)`; the random
generation is the oracle `gen`, keyed by the task id `i+1`. -/
def generate_workload (m : MasterState) (num_tasks : Nat) (gen : Nat → Task) : MasterState :=
  (List.range num_tasks).foldl (fun st i => submit_task st (gen (i + 1))) m

/-- `master.py` lines 145-182 inside `run_benchmark`: the statistics
record, restricted to the fields the coordination engine computes from
its own data (`avg_by_type` and the `psutil` memory sample are grouping
and OS reads over the same lists). -/
structure BenchmarkResult where
  master_type : String
  num_workers : Int
  num_tasks : Nat
  total_time : Rat
  tasks_per_second : Rat
  avg_task_time : Rat
deriving DecidableEq, Repr

/-- `master.py` lines 150-182: the statistics computation of
`run_benchmark`, over the elapsed wall time and the list returned by
`wait_for_completion`:
`tasks_per_second = num_tasks / total_time if total_time > 0 else 0` and
`avg_task_time = sum(task_times) / len(task_times) if task_times else 0`. -/
def benchmark_stats (name : String) (num_workers : Int) (num_tasks : Nat)
    (total_time : Rat) (results : List Task) : BenchmarkResult :=
  { master_type := name, num_workers := num_workers, num_tasks := num_tasks,
    total_time := total_time,
    tasks_per_second := if 0 < total_time then (num_tasks : Rat) / total_time else 0,
    avg_task_time :=
      if results.isEmpty then 0
      else (results.map Task.processing_time).sum / (results.length : Rat) }

/-!
The run phase of `run_benchmark` (`master.py` lines 140-193) as a
small-step system: after `generate_workload` has filled the task queue,
the workers of `ThreadWorker.run` / `ProcessWorker.run` race against the
master's `collect_results` polling inside `wait_for_completion`.  A
schedule of `SysAction`s makes the interleaving explicit:

* `take` — some worker whose loop is idle executes
  `task_queue.get` and obtains the task at the head of the queue
  (at most `numWorkers` tasks can be held this way at once);
* `finish i outcome t0 t1` — the worker holding the `i`-th in-flight
  task returns from `process_task` and executes
  `result_queue.put(processed_task)`;
* `collect` — the master runs `collect_results`, draining the result
  queue into its accumulated list and bumping `tasks_completed`.

An action whose guard does not hold leaves the state unchanged, so every
action list is a legal schedule.
-/

/-- Joint state of the master and its workers during the run phase. -/
structure SysState where
  numWorkers : Nat
  taskQueue : List Task
  inflight : List Task
  resultQueue : List Task
  collected : List Task
  tasks_submitted : Nat
  tasks_completed : Nat
deriving DecidableEq, Repr

/-- One scheduler choice during the run phase. -/
inductive SysAction where
  | take
  | finish (i : Nat) (outcome : WorkloadOutcome) (start_time now : Rat)
  | collect
deriving DecidableEq, Repr

/-- One interleaving step of the run phase. -/
def sysStep (s : SysState) (a : SysAction) : SysState :=
  match a with
  | SysAction.take =>
      match s.taskQueue with
      | [] => s
      | t :: rest =>
          if s.inflight.length < s.numWorkers then
            { s with taskQueue := rest, inflight := s.inflight ++ [t] }
          else s
  | SysAction.finish i outcome t0 t1 =>
      match s.inflight[i]? with
      | Option.none => s
      | some t =>
          { s with inflight := s.inflight.eraseIdx i,
                   resultQueue := s.resultQueue ++ [process_task t outcome t0 t1] }
  | SysAction.collect =>
      { s with resultQueue := [],
               collected := s.collected ++ s.resultQueue,
               tasks_completed := s.tasks_completed + s.resultQueue.length }

/-- Run a whole schedule. -/
def sysRun (s : SysState) (acts : List SysAction) : SysState :=
  acts.foldl sysStep s

/-- The state right after `start_workers` and `generate_workload tasks`:
the task queue holds the submitted tasks in submission order,
`tasks_submitted` counts them, and nothing has been processed. -/
def initSys (numWorkers : Nat) (tasks : List Task) : SysState :=
  { numWorkers := numWorkers, taskQueue := tasks, inflight := [],
    resultQueue := [], collected := [],
    tasks_submitted := tasks.length, tasks_completed := 0 }

/-- A strictly serial schedule: for each queued task, one worker takes
it, finishes it, and the master collects it. -/
def seqSchedule : Nat → List SysAction
  | 0 => []
  | n + 1 =>
      SysAction.take :: SysAction.finish 0 (WorkloadOutcome.raises ("e")) 0 0 ::
        SysAction.collect :: seqSchedule n

/-- All task ids currently anywhere in the system, front to back:
already collected by the master, waiting on the result queue, being
processed, still waiting on the task queue. -/
def sysIds (s : SysState) : List Nat :=
  (s.collected ++ s.resultQueue ++ s.inflight ++ s.taskQueue).map Task.id

/-- A concrete two-task workload used to instantiate the theorems. -/
def sampleTasks : List Task :=
  [{ id := 1, task_type := ("cpu"), payload := [(("iterations"), PyValue.vint 10)] },
   { id := 2, task_type := ("bogus"), payload := [] }]

/-- A concrete master state with two workers, started. -/
def sampleMaster : MasterState :=
  start_workers (ThreadedMaster.init 2)

/-- Claim C7: `get_task_function` returns the io, cpu, or mixed workload
function for the tags "io", "cpu", "mixed" respectively, and returns the
CPU-variant function for every unrecognized tag, so a task with an
unknown type is executed with the CPU workload rather than failing. -/
theorem C7_get_task_function_dispatch :
    get_task_function ("io") = WorkloadFn.io_fn ∧
    get_task_function ("cpu") = WorkloadFn.cpu_fn ∧
    get_task_function ("mixed") = WorkloadFn.mixed_fn ∧
    ∀ s : String, s ≠ "io" → s ≠ "cpu" → s ≠ "mixed" →
      get_task_function s = WorkloadFn.cpu_fn := by
  refine ⟨rfl, rfl, rfl, ?_⟩
  intro s h1 h2 h3
  have e1 : (s == "io") = false := beq_eq_false_iff_ne.mpr h1
  have e2 : (s == "cpu") = false := beq_eq_false_iff_ne.mpr h2
  have e3 : (s == "mixed") = false := beq_eq_false_iff_ne.mpr h3
  simp [get_task_function, task_functions, List.lookup, e1, e2, e3]

/-- Witness for C7 at the concrete unrecognized tag "http". -/
theorem C7_get_task_function_dispatch_witness :
    get_task_function ("io") = WorkloadFn.io_fn ∧
    get_task_function ("http") = WorkloadFn.cpu_fn :=
  ⟨C7_get_task_function_dispatch.1,
   C7_get_task_function_dispatch.2.2.2 ("http") (by decide) (by decide) (by decide)⟩

/-- Claim C2: whether the workload returns normally or raises,
`process_task` returns the same task (same id) with `result` assigned —
the returned value on success, the error-marker string on failure — and
`processing_time ≥ 0` recorded in both cases; a worker-loop iteration on
that task pushes it to the result queue and keeps the loop running, so a
workload failure never terminates the worker loop. -/
theorem C2_process_task_always_completes (task : Task) (outcome : WorkloadOutcome)
    (start_time now : Rat) (hclock : start_time ≤ now) :
    (process_task task outcome start_time now).result ≠ Option.none ∧
    0 ≤ (process_task task outcome start_time now).processing_time ∧
    (process_task task outcome start_time now).id = task.id ∧
    (∀ v, outcome = WorkloadOutcome.returns v →
       (process_task task outcome start_time now).result = some (TaskResult.ok v)) ∧
    (∀ msg, outcome = WorkloadOutcome.raises msg →
       (process_task task outcome start_time now).result
         = some (TaskResult.error ("Error: " ++ msg))) ∧
    ∀ ws : WorkerLoopState, ws.stopped = false →
      (worker_run_step ws (GetOutcome.item (some task)) outcome start_time now).stopped
          = false ∧
      (worker_run_step ws (GetOutcome.item (some task)) outcome start_time now).pushed
          = ws.pushed ++ [process_task task outcome start_time now] := by
  have hstep : ∀ ws : WorkerLoopState, ws.stopped = false →
      (worker_run_step ws (GetOutcome.item (some task)) outcome start_time now).stopped
          = false ∧
      (worker_run_step ws (GetOutcome.item (some task)) outcome start_time now).pushed
          = ws.pushed ++ [process_task task outcome start_time now] := by
    intro ws hws
    simp [worker_run_step, hws]
  cases outcome with
  | returns v =>
      refine ⟨by simp [process_task], ?_, rfl, ?_, ?_, hstep⟩
      · simpa [process_task] using sub_nonneg.mpr hclock
      · intro w hw
        cases hw
        rfl
      · intro m hm
        cases hm
  | raises msg =>
      refine ⟨by simp [process_task], ?_, rfl, ?_, ?_, hstep⟩
      · simpa [process_task] using sub_nonneg.mpr hclock
      · intro w hw
        cases hw
      · intro m hm
        cases hm
        rfl

/-- Witness for C2 at a concrete task whose workload raises. -/
theorem C2_process_task_always_completes_witness :
    ((0 : Rat) ≤ 1) ∧
    ((process_task { id := 7, task_type := ("cpu"), payload := [] }
        (WorkloadOutcome.raises ("boom")) 0 1).result ≠ Option.none ∧
     0 ≤ (process_task { id := 7, task_type := ("cpu"), payload := [] }
        (WorkloadOutcome.raises ("boom")) 0 1).processing_time ∧
     (process_task { id := 7, task_type := ("cpu"), payload := [] }
        (WorkloadOutcome.raises ("boom")) 0 1).id
        = ({ id := 7, task_type := ("cpu"), payload := [] } : Task).id ∧
     (∀ v, WorkloadOutcome.raises ("boom") = WorkloadOutcome.returns v →
        (process_task { id := 7, task_type := ("cpu"), payload := [] }
          (WorkloadOutcome.raises ("boom")) 0 1).result = some (TaskResult.ok v)) ∧
     (∀ msg, WorkloadOutcome.raises ("boom") = WorkloadOutcome.raises msg →
        (process_task { id := 7, task_type := ("cpu"), payload := [] }
          (WorkloadOutcome.raises ("boom")) 0 1).result
          = some (TaskResult.error ("Error: " ++ msg))) ∧
     ∀ ws : WorkerLoopState, ws.stopped = false →
       (worker_run_step ws
          (GetOutcome.item (some { id := 7, task_type := ("cpu"), payload := [] }))
          (WorkloadOutcome.raises ("boom")) 0 1).stopped = false ∧
       (worker_run_step ws
          (GetOutcome.item (some { id := 7, task_type := ("cpu"), payload := [] }))
          (WorkloadOutcome.raises ("boom")) 0 1).pushed
          = ws.pushed ++ [process_task { id := 7, task_type := ("cpu"), payload := [] }
              (WorkloadOutcome.raises ("boom")) 0 1]) :=
  ⟨by norm_num,
   C2_process_task_always_completes { id := 7, task_type := ("cpu"), payload := [] }
     (WorkloadOutcome.raises ("boom")) 0 1 (by norm_num)⟩

/-- Claim C3: in the statistics record, `tasks_per_second` equals
`num_tasks / total_time` when `total_time > 0`, and is `0` when
`total_time` is `0` or when the run completed `0` tasks; in particular
for `num_tasks = 0` the record has `tasks_per_second = 0` and no
division by zero occurs. -/
theorem C3_tasks_per_second_safe (name : String) (num_workers : Int) (num_tasks : Nat)
    (total_time : Rat) (results : List Task) :
    (total_time = 0 →
       (benchmark_stats name num_workers num_tasks total_time results).tasks_per_second = 0) ∧
    (num_tasks = 0 →
       (benchmark_stats name num_workers num_tasks total_time results).tasks_per_second = 0) ∧
    (results.length = num_tasks → results = [] →
       (benchmark_stats name num_workers num_tasks total_time results).tasks_per_second = 0) ∧
    (0 < total_time →
       (benchmark_stats name num_workers num_tasks total_time results).tasks_per_second
         = (num_tasks : Rat) / total_time) := by
  refine ⟨?_, ?_, ?_, ?_⟩
  · intro h
    simp [benchmark_stats, h]
  · intro h
    by_cases ht : 0 < total_time
    · simp [benchmark_stats, h, ht]
    · simp [benchmark_stats, ht]
  · intro hlen hnil
    have hn : num_tasks = 0 := by
      rw [hnil] at hlen
      simpa using hlen.symm
    by_cases ht : 0 < total_time
    · simp [benchmark_stats, hn, ht]
    · simp [benchmark_stats, ht]
  · intro ht
    simp [benchmark_stats, ht]

/-- Witness for C3 at the concrete zero-task run. -/
theorem C3_tasks_per_second_safe_witness :
    (benchmark_stats ("single_process") 1 0 0 []).tasks_per_second = 0 :=
  (C3_tasks_per_second_safe ("single_process") 1 0 0 []).1 rfl

/-- Counterexample to claim C4: at the invalid worker count `0`,
`ThreadedMaster(0)` does not raise — construction returns normally and
a Master instance is produced, with `num_workers = 0` and an empty
pool.  The `__init__` bodies contain no validation. -/
theorem C4_counterexample :
    ThreadedMaster.construct 0 = Except.ok (ThreadedMaster.init 0) ∧
    (ThreadedMaster.init 0).num_workers = 0 ∧
    (ThreadedMaster.init 0).workers = [] :=
  ⟨rfl, rfl, rfl⟩

/-- Claim C4 as amended: construction never validates `num_workers`.
For every integer count, each backend constructor returns normally and
produces a Master instance: `ThreadedMaster` and `MultiprocessMaster`
store the requested count and build `max(count, 0)` workers, while
`SingleProcessMaster` always has `num_workers = 1` and one worker. -/
theorem C4_construction_never_fails (n : Int) :
    ThreadedMaster.construct n = Except.ok (ThreadedMaster.init n) ∧
    (ThreadedMaster.init n).num_workers = n ∧
    (ThreadedMaster.init n).workers.length = n.toNat ∧
    MultiprocessMaster.construct n = Except.ok (MultiprocessMaster.init n) ∧
    (MultiprocessMaster.init n).num_workers = n ∧
    (MultiprocessMaster.init n).workers.length = n.toNat ∧
    SingleProcessMaster.construct n = Except.ok (SingleProcessMaster.init n) ∧
    (SingleProcessMaster.init n).num_workers = 1 ∧
    (SingleProcessMaster.init n).workers.length = 1 := by
  refine ⟨rfl, rfl, ?_, rfl, rfl, ?_, rfl, rfl, rfl⟩ <;>
    simp [ThreadedMaster.init, MultiprocessMaster.init, Master.init]

/-- Claim C5: `stop_workers` is a no-op when the master is not running;
when running, a single call enqueues exactly one sentinel (`None`) per
pool member and sets `running` to false, so a second call in a row
produces no error and sends no second batch of sentinels. -/
theorem C5_stop_workers_idempotent (m : MasterState) :
    (m.running = false → stop_workers m = m) ∧
    (m.running = true →
       (stop_workers m).task_queue
           = m.task_queue ++ List.replicate m.workers.length Option.none ∧
       (stop_workers m).running = false ∧
       (stop_workers m).task_queue.count (Option.none : Option Task)
           = m.task_queue.count (Option.none : Option Task) + m.workers.length) ∧
    stop_workers (stop_workers m) = stop_workers m := by
  refine ⟨?_, ?_, ?_⟩
  · intro h
    simp [stop_workers, h]
  · intro h
    refine ⟨by simp [stop_workers, h], by simp [stop_workers, h], ?_⟩
    simp [stop_workers, h, List.count_append, List.count_replicate]
  · by_cases h : m.running
    · simp [stop_workers, h]
    · simp [stop_workers, h]

/-- Witness for C5 at a concrete running two-worker master: one call
appends exactly two sentinels and a repeated call changes nothing. -/
theorem C5_stop_workers_idempotent_witness :
    (sampleMaster.running = true) ∧
    ((stop_workers sampleMaster).task_queue
         = sampleMaster.task_queue
             ++ List.replicate sampleMaster.workers.length Option.none ∧
     (stop_workers sampleMaster).running = false ∧
     (stop_workers sampleMaster).task_queue.count (Option.none : Option Task)
         = sampleMaster.task_queue.count (Option.none : Option Task)
             + sampleMaster.workers.length) ∧
    stop_workers (stop_workers sampleMaster) = stop_workers sampleMaster :=
  ⟨rfl, (C5_stop_workers_idempotent sampleMaster).2.1 rfl,
   (C5_stop_workers_idempotent sampleMaster).2.2⟩

/-- Claim C10: `collect_results` never raises — any exception while
dequeuing (not only the empty-queue signal) ends the drain, the call
returns the batch dequeued before the exception, `tasks_completed` grows
by exactly the batch length, `tasks_submitted` is untouched, and the
`timeout` parameter is ignored (the drain is non-blocking). -/
theorem C10_collect_results_absorbs_errors (m : MasterState) (timeout : Option Rat)
    (failAt : Option Nat) :
    (collect_results m timeout failAt).1.tasks_submitted = m.tasks_submitted ∧
    (collect_results m timeout failAt).1.tasks_completed
        = m.tasks_completed + (collect_results m timeout failAt).2.length ∧
    (∀ j, failAt = some j →
       (collect_results m timeout failAt).2
           = m.result_queue.take (min j m.result_queue.length)) ∧
    (failAt = Option.none →
       (collect_results m timeout failAt).2 = m.result_queue ∧
       (collect_results m timeout failAt).1.result_queue = []) ∧
    ∀ timeout2 : Option Rat,
       collect_results m timeout2 failAt = collect_results m timeout failAt := by
  refine ⟨rfl, rfl, ?_, ?_, fun _ => rfl⟩
  · intro j hj
    simp [collect_results, hj]
  · intro h
    simp [collect_results, h]

/-- Witness for C10 at a concrete state whose drain dies on the second
`get`: the batch is the first item only. -/
theorem C10_collect_results_absorbs_errors_witness :
    ((collect_results { sampleMaster with result_queue := sampleTasks } (some (1/2))
        (some 1)).1.tasks_submitted
        = ({ sampleMaster with result_queue := sampleTasks } : MasterState).tasks_submitted ∧
     (collect_results { sampleMaster with result_queue := sampleTasks } (some (1/2))
        (some 1)).1.tasks_completed
        = ({ sampleMaster with result_queue := sampleTasks } : MasterState).tasks_completed
            + (collect_results { sampleMaster with result_queue := sampleTasks } (some (1/2))
                (some 1)).2.length ∧
     (collect_results { sampleMaster with result_queue := sampleTasks } (some (1/2))
        (some 1)).2
        = sampleTasks.take (min 1 sampleTasks.length)) :=
  ⟨(C10_collect_results_absorbs_errors { sampleMaster with result_queue := sampleTasks }
      (some (1/2)) (some 1)).1,
   (C10_collect_results_absorbs_errors { sampleMaster with result_queue := sampleTasks }
      (some (1/2)) (some 1)).2.1,
   (C10_collect_results_absorbs_errors { sampleMaster with result_queue := sampleTasks }
      (some (1/2)) (some 1)).2.2.1 1 rfl⟩

/-- Submitting a list of generated tasks in order: the queue grows by
the generated tasks and `tasks_submitted` by the list length, while
everything else in the state is untouched. -/
theorem foldl_submit_eq (gen : Nat → Task) :
    ∀ (l : List Nat) (m : MasterState),
      l.foldl (fun st i => submit_task st (gen (i + 1))) m
        = { m with task_queue := m.task_queue ++ l.map (fun i => some (gen (i + 1))),
                   tasks_submitted := m.tasks_submitted + l.length } := by
  intro l
  induction l with
  | nil => intro m; simp
  | cons a tl ih =>
      intro m
      rw [List.foldl_cons, ih]
      simp [submit_task, List.append_assoc]
      omega

/-- Claim C8: constructing the Sequential backend yields `num_workers = 1`
and a pool of exactly one worker regardless of the requested count, and
no Master operation ever changes `num_workers` after construction. -/
theorem C8_single_process_pins_one_worker (requested : Int) :
    (SingleProcessMaster.init requested).num_workers = 1 ∧
    (SingleProcessMaster.init requested).workers.length = 1 ∧
    (SingleProcessMaster.init requested).workers = [1] ∧
    (∀ (m : MasterState) (t : Task), (submit_task m t).num_workers = m.num_workers) ∧
    (∀ (m : MasterState) (timeout : Option Rat) (failAt : Option Nat),
       (collect_results m timeout failAt).1.num_workers = m.num_workers) ∧
    (∀ m : MasterState, (start_workers m).num_workers = m.num_workers) ∧
    (∀ m : MasterState, (stop_workers m).num_workers = m.num_workers) ∧
    (∀ (m : MasterState) (n : Nat) (gen : Nat → Task),
       (generate_workload m n gen).num_workers = m.num_workers) := by
  refine ⟨rfl, rfl, rfl, fun m t => rfl, fun m timeout failAt => rfl, fun m => rfl,
          ?_, ?_⟩
  · intro m
    by_cases h : m.running <;> simp [stop_workers, h]
  · intro m n gen
    rw [generate_workload, foldl_submit_eq]

/-- Claim C9: across every Master operation the counters are
monotonically non-decreasing and single-writer: `submit_task` and
`generate_workload` are the only operations that increase
`tasks_submitted` (by exactly the number of submissions),
`collect_results` the only one that increases `tasks_completed` (by
exactly the batch size), `start_workers` and `stop_workers` touch
neither, and every interleaving step of the run phase (which is how
`wait_for_completion` and `run_benchmark` act on the counters) leaves
both counters non-decreasing. -/
theorem C9_counters_monotone :
    (∀ (m : MasterState) (t : Task),
       (submit_task m t).tasks_submitted = m.tasks_submitted + 1 ∧
       (submit_task m t).tasks_completed = m.tasks_completed) ∧
    (∀ (m : MasterState) (timeout : Option Rat) (failAt : Option Nat),
       (collect_results m timeout failAt).1.tasks_submitted = m.tasks_submitted ∧
       (collect_results m timeout failAt).1.tasks_completed
         = m.tasks_completed + (collect_results m timeout failAt).2.length) ∧
    (∀ (m : MasterState) (n : Nat) (gen : Nat → Task),
       (generate_workload m n gen).tasks_submitted = m.tasks_submitted + n ∧
       (generate_workload m n gen).tasks_completed = m.tasks_completed) ∧
    (∀ m : MasterState,
       (start_workers m).tasks_submitted = m.tasks_submitted ∧
       (start_workers m).tasks_completed = m.tasks_completed) ∧
    (∀ m : MasterState,
       (stop_workers m).tasks_submitted = m.tasks_submitted ∧
       (stop_workers m).tasks_completed = m.tasks_completed) ∧
    (∀ (s : SysState) (a : SysAction),
       s.tasks_submitted ≤ (sysStep s a).tasks_submitted ∧
       s.tasks_completed ≤ (sysStep s a).tasks_completed) := by
  refine ⟨fun m t => ⟨rfl, rfl⟩, fun m timeout failAt => ⟨rfl, rfl⟩, ?_, fun m => ⟨rfl, rfl⟩,
          ?_, ?_⟩
  · intro m n gen
    rw [generate_workload, foldl_submit_eq]
    simp
  · intro m
    by_cases h : m.running <;> simp [stop_workers, h]
  · intro s a
    cases a with
    | take =>
        cases htq : s.taskQueue with
        | nil => simp [sysStep, htq]
        | cons t rest =>
            by_cases h : s.inflight.length < s.numWorkers <;> simp [sysStep, htq, h]
    | finish i outcome t0 t1 =>
        cases hg : s.inflight[i]? <;> simp [sysStep, hg]
    | collect => simp [sysStep]

/-- Processing a task never changes its id. -/
@[simp]
theorem process_task_id (task : Task) (outcome : WorkloadOutcome) (t0 t1 : Rat) :
    (process_task task outcome t0 t1).id = task.id := by
  cases outcome <;> rfl

/-- A list with a valid index is, up to permutation, that element
consed onto the list with the index erased. -/
theorem perm_cons_eraseIdx_of_getElem (l : List Task) :
    ∀ (i : Nat) (x : Task), l[i]? = some x → l.Perm (x :: l.eraseIdx i) := by
  induction l with
  | nil => intro i x h; simp at h
  | cons a tl ih =>
      intro i x h
      cases i with
      | zero =>
          simp only [List.getElem?_cons_zero, Option.some.injEq] at h
          subst h
          simp
      | succ i =>
          simp only [List.getElem?_cons_succ] at h
          have htl := ih i x h
          have he : (a :: tl).eraseIdx (i + 1) = a :: tl.eraseIdx i := by simp
          rw [he]
          exact (htl.cons a).trans (List.Perm.swap x a _)

/-- One interleaving step preserves the run-phase invariant: the bag of
task ids in the system is the submitted bag, `tasks_completed` counts
the collected list, and `tasks_submitted` is frozen. -/
theorem sysStep_preserves_inv (ids : List Nat) (N : Nat) (s : SysState) (a : SysAction)
    (hperm : (sysIds s).Perm ids)
    (hc : s.tasks_completed = s.collected.length)
    (hn : s.tasks_submitted = N) :
    (sysIds (sysStep s a)).Perm ids ∧
    (sysStep s a).tasks_completed = (sysStep s a).collected.length ∧
    (sysStep s a).tasks_submitted = N := by
  cases a with
  | take =>
      cases htq : s.taskQueue with
      | nil => simpa [sysStep, htq] using ⟨hperm, hc, hn⟩
      | cons t rest =>
          by_cases h : s.inflight.length < s.numWorkers
          · refine ⟨?_, by simp [sysStep, htq, h, hc], by simp [sysStep, htq, h, hn]⟩
            have e : sysIds (sysStep s SysAction.take) = sysIds s := by
              simp [sysStep, htq, h, sysIds]
            rw [e]
            exact hperm
          · simpa [sysStep, htq, h] using ⟨hperm, hc, hn⟩
  | finish i outcome t0 t1 =>
      cases hg : s.inflight[i]? with
      | none => simpa [sysStep, hg] using ⟨hperm, hc, hn⟩
      | some t =>
          refine ⟨?_, by simp [sysStep, hg, hc], by simp [sysStep, hg, hn]⟩
          refine List.Perm.trans ?_ hperm
          have hi := (perm_cons_eraseIdx_of_getElem s.inflight i t hg).map Task.id
          simp only [List.map_cons] at hi
          simp only [sysStep, hg, sysIds, List.map_append, List.append_assoc,
            List.map_cons, List.map_nil, List.cons_append, List.nil_append,
            List.singleton_append, process_task_id]
          refine List.Perm.append_left _ (List.Perm.append_left _ ?_)
          exact ((hi.append_right (s.taskQueue.map Task.id)).symm)
  | collect =>
      refine ⟨?_, by simp [sysStep, hc], by simp [sysStep, hn]⟩
      have e : sysIds (sysStep s SysAction.collect) = sysIds s := by
        simp [sysStep, sysIds]
      rw [e]
      exact hperm

/-- The run-phase invariant holds after any schedule. -/
theorem sysRun_preserves_inv (ids : List Nat) (N : Nat) :
    ∀ (acts : List SysAction) (s : SysState),
      (sysIds s).Perm ids → s.tasks_completed = s.collected.length →
      s.tasks_submitted = N →
      (sysIds (sysRun s acts)).Perm ids ∧
      (sysRun s acts).tasks_completed = (sysRun s acts).collected.length ∧
      (sysRun s acts).tasks_submitted = N := by
  intro acts
  induction acts with
  | nil => intro s h1 h2 h3; exact ⟨h1, h2, h3⟩
  | cons a tl ih =>
      intro s h1 h2 h3
      have hstep := sysStep_preserves_inv ids N s a h1 h2 h3
      exact ih (sysStep s a) hstep.1 hstep.2.1 hstep.2.2

/-- The strictly serial schedule drains the whole task queue: with at
least one worker it completes exactly as many tasks as were queued. -/
theorem seqSchedule_drains :
    ∀ (ts : List Task) (s : SysState),
      s.taskQueue = ts → s.inflight = [] → s.resultQueue = [] → 1 ≤ s.numWorkers →
      (sysRun s (seqSchedule ts.length)).tasks_completed = s.tasks_completed + ts.length ∧
      (sysRun s (seqSchedule ts.length)).tasks_submitted = s.tasks_submitted := by
  intro ts
  induction ts with
  | nil =>
      intro s h1 h2 h3 h4
      simp [seqSchedule, sysRun]
  | cons t rest ih =>
      intro s h1 h2 h3 h4
      have h0 : (0 : Nat) < s.numWorkers := h4
      have erun : sysRun s (seqSchedule (t :: rest).length)
          = sysRun
              { s with taskQueue := rest, inflight := [], resultQueue := [],
                       collected := s.collected
                         ++ [process_task t (WorkloadOutcome.raises ("e")) 0 0],
                       tasks_completed := s.tasks_completed + 1 }
              (seqSchedule rest.length) := by
        show List.foldl sysStep s _ = _
        simp only [List.length_cons, seqSchedule, List.foldl_cons]
        congr 1
        simp [sysStep, h1, h2, h3, h0]
      rw [erun]
      have hrec := ih
        { s with taskQueue := rest, inflight := [], resultQueue := [],
                 collected := s.collected
                   ++ [process_task t (WorkloadOutcome.raises ("e")) 0 0],
                 tasks_completed := s.tasks_completed + 1 }
        rfl rfl rfl (by simpa using h4)
      refine ⟨?_, by simpa using hrec.2⟩
      rw [hrec.1]
      simp
      omega

/-- Claim C1: for every workload (with distinct task ids, as
`generate_workload` produces) and every backend pool with at least one
worker, the run phase of `run_benchmark` with no overall timeout ends
with exactly the submitted tasks collected: whenever the
`wait_for_completion` exit condition `tasks_completed ≥ tasks_submitted`
holds — and a schedule reaching it exists — the collected list has
exactly `N` entries, a permutation of the submitted ids with no
duplicate and no loss, and `tasks_completed = tasks_submitted = N`. -/
theorem C1_run_benchmark_completes (numWorkers : Nat) (tasks : List Task)
    (hnodup : (tasks.map Task.id).Nodup) (hwork : 1 ≤ numWorkers) :
    (∀ acts : List SysAction,
       (sysRun (initSys numWorkers tasks) acts).tasks_submitted = tasks.length ∧
       (tasks.length ≤ (sysRun (initSys numWorkers tasks) acts).tasks_completed →
          (sysRun (initSys numWorkers tasks) acts).collected.length = tasks.length ∧
          (sysRun (initSys numWorkers tasks) acts).tasks_completed = tasks.length ∧
          ((sysRun (initSys numWorkers tasks) acts).collected.map Task.id).Perm
              (tasks.map Task.id) ∧
          ((sysRun (initSys numWorkers tasks) acts).collected.map Task.id).Nodup)) ∧
    ∃ acts : List SysAction,
      tasks.length ≤ (sysRun (initSys numWorkers tasks) acts).tasks_completed := by
  constructor
  · intro acts
    obtain ⟨hperm, hc, hn⟩ := sysRun_preserves_inv (tasks.map Task.id) tasks.length acts
      (initSys numWorkers tasks) (by simp [sysIds, initSys]) (by simp [initSys])
      (by simp [initSys])
    refine ⟨hn, ?_⟩
    intro hge
    set f := sysRun (initSys numWorkers tasks) acts
    have hlen : (sysIds f).length = (tasks.map Task.id).length := hperm.length_eq
    have hsum : f.collected.length
          + (f.resultQueue.length + (f.inflight.length + f.taskQueue.length))
        = tasks.length := by
      simpa [sysIds] using hlen
    have hr : f.resultQueue = [] := List.length_eq_zero.mp (by omega)
    have hi : f.inflight = [] := List.length_eq_zero.mp (by omega)
    have hq : f.taskQueue = [] := List.length_eq_zero.mp (by omega)
    have hperm2 : (f.collected.map Task.id).Perm (tasks.map Task.id) := by
      simpa [sysIds, hr, hi, hq] using hperm
    exact ⟨by omega, by omega, hperm2, hperm2.nodup_iff.mpr hnodup⟩
  · refine ⟨seqSchedule tasks.length, ?_⟩
    have hdrain := seqSchedule_drains tasks (initSys numWorkers tasks) rfl rfl rfl
      (by simpa [initSys] using hwork)
    have h1 := hdrain.1
    simp [initSys] at h1
    omega

/-- Witness for C1 at the concrete two-task workload with one worker:
the hypotheses hold and a completing schedule exists. -/
theorem C1_run_benchmark_completes_witness :
    ((sampleTasks.map Task.id).Nodup ∧ (1 : Nat) ≤ 1) ∧
    ∃ acts : List SysAction,
      sampleTasks.length ≤ (sysRun (initSys 1 sampleTasks) acts).tasks_completed :=
  ⟨⟨by decide, by decide⟩,
   (C1_run_benchmark_completes 1 sampleTasks (by decide) (by decide)).2⟩

/-- With a single worker the run-phase invariant is exact: at most one
task is ever in flight and the front-to-back id list of the system is
frozen, so order is preserved, not merely the bag of ids. -/
theorem sysStep_seq_inv (ids : List Nat) (s : SysState) (a : SysAction)
    (hw : s.numWorkers = 1) (hone : s.inflight.length ≤ 1)
    (hid : sysIds s = ids) (hc : s.tasks_completed = s.collected.length) :
    (sysStep s a).numWorkers = 1 ∧ (sysStep s a).inflight.length ≤ 1 ∧
    sysIds (sysStep s a) = ids ∧
    (sysStep s a).tasks_completed = (sysStep s a).collected.length := by
  cases a with
  | take =>
      cases htq : s.taskQueue with
      | nil =>
          refine ⟨by simp [sysStep, htq, hw], by simp [sysStep, htq, hone], ?_,
                  by simp [sysStep, htq, hc]⟩
          simpa [sysStep, htq] using hid
      | cons t rest =>
          by_cases h : s.inflight.length < s.numWorkers
          · have hinf : s.inflight = [] := by
              rw [hw] at h
              exact List.length_eq_zero.mp (by omega)
            have estep : sysStep s SysAction.take
                = { s with taskQueue := rest, inflight := s.inflight ++ [t] } := by
              simp [sysStep, htq, h]
            refine ⟨by simp [estep, hw], by simp [estep, hinf], ?_, by simp [estep, hc]⟩
            rw [estep, ← hid]
            simp [sysIds, htq]
          · have estep : sysStep s SysAction.take = s := by
              simp [sysStep, htq, h]
            rw [estep]
            exact ⟨hw, hone, hid, hc⟩
  | finish i outcome t0 t1 =>
      cases hg : s.inflight[i]? with
      | none =>
          have estep : sysStep s (SysAction.finish i outcome t0 t1) = s := by
            simp [sysStep, hg]
          rw [estep]
          exact ⟨hw, hone, hid, hc⟩
      | some t =>
          have hlt : i < s.inflight.length := by
            rcases List.getElem?_eq_some.mp hg with ⟨h1, _⟩
            exact h1
          have hlen1 : s.inflight.length = 1 := by omega
          have hi0 : i = 0 := by omega
          subst hi0
          have hinf : s.inflight = [t] := by
            cases hL : s.inflight with
            | nil => rw [hL] at hlen1; simp at hlen1
            | cons x tl =>
                rw [hL] at hlen1 hg
                simp only [List.length_cons, Nat.add_left_eq_self] at hlen1
                have htl := List.length_eq_zero.mp hlen1
                subst htl
                simp only [List.getElem?_cons_zero, Option.some.injEq] at hg
                rw [hg]
          have estep : sysStep s (SysAction.finish 0 outcome t0 t1)
              = { s with inflight := [],
                         resultQueue := s.resultQueue ++ [process_task t outcome t0 t1] } := by
            simp [sysStep, hinf]
          refine ⟨by simp [estep, hw], by simp [estep], ?_, by simp [estep, hc]⟩
          rw [estep, ← hid]
          simp [sysIds, hinf]
  | collect =>
      refine ⟨by simp [sysStep, hw], by simp [sysStep, hone], ?_, by simp [sysStep, hc]⟩
      rw [← hid]
      simp [sysIds, sysStep]

/-- The single-worker exact invariant holds after any schedule. -/
theorem sysRun_seq_inv (ids : List Nat) :
    ∀ (acts : List SysAction) (s : SysState),
      s.numWorkers = 1 → s.inflight.length ≤ 1 → sysIds s = ids →
      s.tasks_completed = s.collected.length →
      (sysRun s acts).numWorkers = 1 ∧ (sysRun s acts).inflight.length ≤ 1 ∧
      sysIds (sysRun s acts) = ids ∧
      (sysRun s acts).tasks_completed = (sysRun s acts).collected.length := by
  intro acts
  induction acts with
  | nil => intro s h1 h2 h3 h4; exact ⟨h1, h2, h3, h4⟩
  | cons a tl ih =>
      intro s h1 h2 h3 h4
      have hstep := sysStep_seq_inv ids s a h1 h2 h3 h4
      exact ih (sysStep s a) hstep.1 hstep.2.1 hstep.2.2.1 hstep.2.2.2

/-- Claim C6: on the Sequential backend (exactly one worker), tasks
complete in submission order — after any schedule, the ids that have
arrived on the result queue (collected by the master or still waiting
there) form a prefix of the submitted id sequence, and when the run
completes, the collected id sequence equals the submitted id sequence. -/
theorem C6_sequential_preserves_order (tasks : List Task) :
    ∀ acts : List SysAction,
      ((sysRun (initSys 1 tasks) acts).collected
          ++ (sysRun (initSys 1 tasks) acts).resultQueue).map Task.id
        = (tasks.map Task.id).take
            (((sysRun (initSys 1 tasks) acts).collected
                ++ (sysRun (initSys 1 tasks) acts).resultQueue).map Task.id).length ∧
      (tasks.length ≤ (sysRun (initSys 1 tasks) acts).tasks_completed →
         (sysRun (initSys 1 tasks) acts).collected.map Task.id = tasks.map Task.id) := by
  intro acts
  obtain ⟨hw, hone, hid, hc⟩ := sysRun_seq_inv (tasks.map Task.id) acts (initSys 1 tasks)
    rfl (by simp [initSys]) (by simp [sysIds, initSys]) (by simp [initSys])
  set f := sysRun (initSys 1 tasks) acts
  constructor
  · have hsplit : tasks.map Task.id
        = (f.collected ++ f.resultQueue).map Task.id
            ++ (f.inflight ++ f.taskQueue).map Task.id := by
      rw [← hid]
      simp [sysIds]
    rw [hsplit, List.take_left]
  · intro hge
    have hlen : (sysIds f).length = (tasks.map Task.id).length := by rw [hid]
    have hsum : f.collected.length
          + (f.resultQueue.length + (f.inflight.length + f.taskQueue.length))
        = tasks.length := by
      simpa [sysIds] using hlen
    have hr : f.resultQueue = [] := List.length_eq_zero.mp (by omega)
    have hi : f.inflight = [] := List.length_eq_zero.mp (by omega)
    have hq : f.taskQueue = [] := List.length_eq_zero.mp (by omega)
    rw [← hid]
    simp [sysIds, hr, hi, hq]

/-- Witness for C6: running the serial schedule on the concrete
two-task workload with one worker completes, and the collected ids come
out in submission order. -/
theorem C6_sequential_preserves_order_witness :
    (sampleTasks.length
        ≤ (sysRun (initSys 1 sampleTasks) (seqSchedule 2)).tasks_completed) ∧
    (sysRun (initSys 1 sampleTasks) (seqSchedule 2)).collected.map Task.id
        = sampleTasks.map Task.id :=
  ⟨by decide,
   (C6_sequential_preserves_order sampleTasks (seqSchedule 2)).2 (by decide)⟩

end PPS
